import Mathlib

/-!
Shallow embedding of the Mr. OTCS stream-supervisor core (src/config.py,
src/streamstats.py, src/utils.py, src/mail.py, src/playlist.py, src/main.py)
and proofs about the claims of its specification.

Conventions of the embedding:
* Python integers become Lean `Int` (timestamps are Unix seconds as `Int`);
  counters that are always nonnegative become `Nat`.
* The configuration module is modelled as a settings record `Config`
  (the specification treats configuration parsing as an external
  collaborator supplying a settings record to the core).
* Wall-clock reads (`datetime.now()`) become explicit `now : Int` inputs.
* Fallible code returns `Except`; loops without a structural bound take
  explicit fuel or consume a finite list of environment outcomes.
* Media probing (`get_length`) is abstract: entries carry an
  `Option Int` length, `none` standing for a probe failure.
-/

namespace MrOtcs

/-- Python string comparison, lexicographic on code points, on the
character lists underlying two strings. -/
def pyStrLtAux : List Char → List Char → Bool
  | [], [] => false
  | [], _ :: _ => true
  | _ :: _, [] => false
  | a :: as, b :: bs =>
      if a.val < b.val then true
      else if b.val < a.val then false
      else pyStrLtAux as bs

/-- Python `a < b` on strings. -/
def pyStrLt (a b : String) : Bool := pyStrLtAux a.data b.data

/-- ASCII lower-casing of one character, standing in for Python
`str.casefold` on the ASCII names this program handles. -/
def asciiLowerChar (ch : Char) : Char :=
  if ch.val ≥ 65 && ch.val ≤ 90 then Char.ofNat (ch.toNat + 32) else ch

/-- ASCII lower-casing of a character list. -/
def asciiLower (s : List Char) : List Char := s.map asciiLowerChar

/-- Settings record holding the `config.*` attributes that the embedded
functions read.  Names follow src/config.py (`SCHEDULE_MIN_VIDEO_LENGTH`,
`MAIL_ALERT_ON_FILE_NOT_FOUND` and `MAIL_ALERT_ON_SCHEDULE_ERROR` are read
by the source from the settings record as well).  The lengths of the two
optional restart clips stand for `get_length(STREAM_RESTART_*_VIDEO)`;
`none` means the option is unset. -/
structure Config where
  REWIND_LENGTH : Int := 30
  TIME_RECORD_INTERVAL : Int := 30
  VIDEO_PADDING : Int := 2
  STREAM_TIME_BEFORE_RESTART : Int := 86400
  STREAM_RESTART_WAIT : Int := 10
  STREAM_RESTART_BEFORE_VIDEO_LENGTH : Option Int := none
  STREAM_RESTART_AFTER_VIDEO_LENGTH : Option Int := none
  SCHEDULE_MIN_VIDEOS : Nat := 1
  SCHEDULE_MAX_VIDEOS : Nat := 15
  SCHEDULE_UPCOMING_LENGTH : Int := 14400
  SCHEDULE_MIN_VIDEO_LENGTH : Int := 0
  SCHEDULE_EXCLUDE_FILE_PATTERN : Option (List String) := none
  RETRY_ATTEMPTS : Int := 0
  RETRY_PERIOD : Int := 5
  EXIT_ON_FILE_NOT_FOUND : Bool := false
  REMOTE_UPLOAD_ATTEMPTS : Int := 5
  MAIL_ALERT_ON_FILE_NOT_FOUND : Bool := true
  MAIL_ALERT_ON_STREAM_RESUME : Bool := true
  MAIL_ALERT_ON_REMOTE_ERROR : Int := 1
  MAIL_ALERT_ON_NEW_PRERELEASE_VERSION : Bool := false
  deriving Repr

/-- StreamStats.rewind (src/streamstats.py:180-185): subtract from
`elapsed_time` without going below 0. -/
def StreamStats.rewind (elapsed_time t : Int) : Int :=
  max 0 (elapsed_time - t)

/-- playlist.get_stream_restart_duration (src/playlist.py:232-253):
combined duration of the optional before/after restart clips (each plus
`VIDEO_PADDING`) and `STREAM_RESTART_WAIT`. -/
def get_stream_restart_duration (c : Config) : Int :=
  (match c.STREAM_RESTART_BEFORE_VIDEO_LENGTH with
    | some l => l + c.VIDEO_PADDING
    | none => 0)
  + (match c.STREAM_RESTART_AFTER_VIDEO_LENGTH with
    | some l => l + c.VIDEO_PADDING
    | none => 0)
  + c.STREAM_RESTART_WAIT

/-! ## Alert dispatcher (src/mail.py) -/

/-- Outcome of one SMTP delivery attempt inside `_send_email`
(src/mail.py:162-216): delivered, failed for a retryable reason, or
failed with an authentication error (which calls `self.stop()`). -/
inductive SmtpOutcome where
  | ok
  | fail
  | authFail
  deriving DecidableEq, Repr

/-- One entry of the bounded priority queue
(`PrioritizedItem`, src/mail.py:19-22 and the tuples queued at
src/mail.py:393-399). -/
structure QItem where
  priority : Int
  alert_type : String
  bypass_interval : Bool
  deriving DecidableEq, Repr

/-- State of an `EMailDaemon` (src/mail.py:29-56) restricted to the fields
the embedded operations touch: the bounded queue, the per-type last-sent
map and the running flag.  `last_sent` is an association list; a missing
key plays the role of `datetime.min` (always allows a send). -/
structure EMailDaemon where
  queue : List QItem := []
  last_sent : List (String × Int) := []
  running : Bool := true
  deriving DecidableEq, Repr

/-- Lookup in the `last_sent` dictionary (src/mail.py:131-133). -/
def EMailDaemon.lastSentOf (st : EMailDaemon) (alert_type : String) : Option Int :=
  (st.last_sent.find? (fun p => p.1 == alert_type)).map Prod.snd

/-- Dictionary update `self.last_sent[alert_type] = t`. -/
def EMailDaemon.setLastSent (st : EMailDaemon) (alert_type : String) (t : Int) :
    EMailDaemon :=
  { st with last_sent :=
      (alert_type, t) :: st.last_sent.filter (fun p => !(p.1 == alert_type)) }

/-- EMailDaemon.stop (src/mail.py:461-464): clear the running flag, then
`clear_queue` empties the queue and resets `last_sent` to `{}`. -/
def EMailDaemon.stop (st : EMailDaemon) : EMailDaemon :=
  { st with running := false, queue := [], last_sent := [] }

/-- The keys of the `alert_types` dictionary in `add_alert`
(src/mail.py:271-360) with their default priorities. -/
def alert_types : List (String × Int) :=
  [("stream_down", 0), ("stream_resume", 10), ("file_retry", 0),
   ("file_not_found", 0), ("schedule_error", 0), ("program_error", 0),
   ("remote_success_after_error", 0), ("remote_error", 0),
   ("remote_auth_failed", 0), ("playlist_loop", 10), ("playlist_stop", 0),
   ("playlist_end", 0), ("mail_command", 10), ("new_version", 10),
   ("status_report", 10), ("general", 10)]

/-- Priority of a recognized alert type, `none` for an unrecognized one. -/
def alertPriority (alert_type : String) : Option Int :=
  (alert_types.find? (fun p => p.1 == alert_type)).map Prod.snd

/-- A successfully delivered e-mail, as observed on the wire. -/
structure SendRec where
  alert_type : String
  time : Int
  bypass_interval : Bool
  urgent : Bool
  deriving DecidableEq, Repr

/-- The extra delay added to `last_sent` for `schedule_error`
(src/mail.py:145-153): `timedelta(minutes=max(0, SCHEDULE_UPCOMING_LENGTH - 60))`,
converted to seconds. -/
def scheduleErrorExtraDelay (c : Config) : Int :=
  60 * max 0 (c.SCHEDULE_UPCOMING_LENGTH - 60)

/-- EMailDaemon._send_email_if_allowed (src/mail.py:116-160), the path the
queue worker takes for a dequeued message.  Returns the new daemon state
and the successfully delivered messages (at most one).  The `smtp`
argument is the outcome of the inner `_send_email` call; an
authentication failure there runs `self.stop()`. -/
def send_email_if_allowed (c : Config) (st : EMailDaemon) (alert_type : String)
    (bypass_interval : Bool) (now : Int) (smtp : SmtpOutcome) :
    EMailDaemon × List SendRec :=
  let allowed :=
    bypass_interval ||
      (match st.lastSentOf alert_type with
        | none => true
        | some t => decide (now - t ≥ 3600))
  if allowed then
    match smtp with
    | .ok =>
        let st :=
          if alert_type ≠ "schedule_error" then st.setLastSent alert_type now
          else st.setLastSent "schedule_error" (now + scheduleErrorExtraDelay c)
        (st, [⟨alert_type, now, bypass_interval, false⟩])
    | .fail => (st, [])
    | .authFail => (st.stop, [])
  else
    (st, [])

/-- EMailDaemon.add_alert (src/mail.py:218-416).  Returns the new state,
delivered messages and queue actions; raising
`ValueError(f"Unrecognized alert type: ...")` becomes `Except.error`.
A non-urgent alert is enqueued with `put_nowait` on the size-10 queue and
discarded when the queue is full (src/mail.py:393-404); an urgent alert is
sent synchronously, updating `last_sent` on success (src/mail.py:405-414). -/
inductive QueueAction where
  | queued
  | discardedQueueFull
  deriving DecidableEq, Repr

def add_alert (st : EMailDaemon) (alert_type : String)
    (bypass_interval urgent : Bool) (now : Int) (smtp : SmtpOutcome) :
    Except String (EMailDaemon × List SendRec × List QueueAction) :=
  if !st.running then .ok (st, [], [])
  else
    match alertPriority alert_type with
    | none => .error ("Unrecognized alert type: " ++ alert_type)
    | some priority =>
        if !urgent then
          if st.queue.length ≥ 10 then .ok (st, [], [.discardedQueueFull])
          else
            .ok ({ st with
                    queue := st.queue ++ [⟨priority, alert_type, bypass_interval⟩] },
                 [], [.queued])
        else
          match smtp with
          | .ok => .ok (st.setLastSent alert_type now,
                        [⟨alert_type, now, bypass_interval, true⟩], [])
          | .fail => .ok (st, [], [])
          | .authFail => .ok (st.stop, [], [])

/-- Events observed by the dispatcher, in wall-clock order: the worker
thread processing one dequeued message (`run`, src/mail.py:58-81), a
caller adding an urgent alert, or `stop`. -/
inductive MailEvent where
  | worker (alert_type : String) (bypass_interval : Bool) (now : Int) (smtp : SmtpOutcome)
  | urgent (alert_type : String) (now : Int) (smtp : SmtpOutcome)
  | stop (now : Int)
  deriving DecidableEq, Repr

def MailEvent.now : MailEvent → Int
  | .worker _ _ n _ => n
  | .urgent _ n _ => n
  | .stop n => n

/-- One dispatcher step.  The worker only processes messages while
`running` holds (the `run` loop condition); an urgent `add_alert` for an
unrecognized type raises and leaves the state unchanged. -/
def mailStep (c : Config) (st : EMailDaemon) : MailEvent → EMailDaemon × List SendRec
  | .worker alert_type bypass_interval now smtp =>
      if st.running then send_email_if_allowed c st alert_type bypass_interval now smtp
      else (st, [])
  | .urgent alert_type now smtp =>
      match add_alert st alert_type false true now smtp with
      | .ok (st', sends, _) => (st', sends)
      | .error _ => (st, [])
  | .stop _ => (st.stop, [])

/-- Run the dispatcher over a list of events, collecting delivered
messages in order. -/
def mailRun (c : Config) (st : EMailDaemon) : List MailEvent → List SendRec
  | [] => []
  | e :: es =>
      let p := mailStep c st e
      p.2 ++ mailRun c p.1 es

/-- Deduplication window as the specification words it: 1 hour by
default; for `schedule_error`, the upcoming length minus one hour,
floored at zero. -/
def claimedDedupWindow (c : Config) (alert_type : String) : Int :=
  if alert_type = "schedule_error" then max 0 (c.SCHEDULE_UPCOMING_LENGTH - 3600)
  else 3600

/-! ## check_file (src/utils.py:64-139) -/

/-- Observable side effects of `check_file`. -/
inductive FileEffect where
  | sleep (seconds : Int)
  | alertAdded (alert_type : String)
  deriving DecidableEq, Repr

/-- Errors escaping `check_file`: the `FileNotFoundError` raised when
retries are exhausted under `EXIT_ON_FILE_NOT_FOUND`, a `ValueError`
propagating out of `add_alert`, or fuel exhaustion of the unbounded
retry loop. -/
inductive CheckFileErr where
  | fileNotFound (path : String)
  | valueError (msg : String)
  | fuelExhausted
  deriving DecidableEq, Repr

/-- Loop body of `check_file` (src/utils.py:90-132), one iteration per
fuel unit.  `fileExists poll` models `os.path.isfile(path)` at the
poll-th check; `daemon` is `stats.mail_daemon` (with
`stats = None` rendered as `none`). -/
def check_file_loop (c : Config) (path : String) (no_exit : Bool)
    (daemon : Option EMailDaemon) (fileExists : Nat → Bool) :
    Nat → Nat → Int → Bool → List FileEffect →
    Except CheckFileErr (Bool × List FileEffect)
  | 0, _, _, _, _ => .error .fuelExhausted
  | fuel + 1, poll, retry_attempts_remaining, alert_sent, effects =>
    if fileExists poll then
      match daemon with
      | some d =>
          if alert_sent && d.running && c.MAIL_ALERT_ON_STREAM_RESUME then
            .ok (true, effects ++ [.alertAdded "stream_resume"])
          else .ok (true, effects)
      | none => .ok (true, effects)
    else
      let alertBranch :=
        match daemon with
        | some d =>
            !alert_sent && retry_attempts_remaining < 0 &&
              d.running && c.MAIL_ALERT_ON_FILE_NOT_FOUND
        | none => false
      match (if alertBranch then
              match add_alert (daemon.getD {}) "playlist_file_retry" false false 0 .ok with
              | .ok _ => Except.ok ()
              | .error msg => Except.error (CheckFileErr.valueError msg)
             else Except.ok ()) with
      | .error e => .error e
      | .ok _ =>
        let alert_sent := alert_sent || alertBranch
        let effects :=
          if alertBranch then effects ++ [.alertAdded "playlist_file_retry"]
          else effects
        if retry_attempts_remaining > 0 then
          check_file_loop c path no_exit daemon fileExists fuel (poll + 1)
            (retry_attempts_remaining - 1) alert_sent
            (effects ++ [.sleep c.RETRY_PERIOD])
        else if retry_attempts_remaining = 0 then
          if c.EXIT_ON_FILE_NOT_FOUND && !no_exit then .error (.fileNotFound path)
          else .ok (false, effects)
        else
          check_file_loop c path no_exit daemon fileExists fuel (poll + 1)
            retry_attempts_remaining alert_sent
            (effects ++ [.sleep c.RETRY_PERIOD])

/-- utils.check_file (src/utils.py:64-139).  A `None` path returns `True`
immediately (src/utils.py:78-79); otherwise the retry loop runs with
`retry_attempts_remaining = RETRY_ATTEMPTS`. -/
def check_file (c : Config) (path : Option String) (no_exit : Bool)
    (daemon : Option EMailDaemon) (fileExists : Nat → Bool) (fuel : Nat) :
    Except CheckFileErr (Bool × List FileEffect) :=
  match path with
  | none => .ok (true, [])
  | some p => check_file_loop c p no_exit daemon fileExists fuel 0 c.RETRY_ATTEMPTS false []

/-! ## Supervisor loop fragment for one Normal item (src/main.py:894-1171) -/

/-- Mutable supervisor state threaded through the playback of one Normal
playlist entry: the in-memory cursor (`play_index`, `stats.elapsed_time`),
the rewind floor `stats.video_resume_point`, and the counters the
fragment touches. -/
structure PlayState where
  play_index : Nat
  elapsed_time : Int
  video_resume_point : Int
  stream_time_remaining : Int
  videos_since_restart : Nat
  total_videos : Nat
  retried : Bool
  retries : Nat
  deriving DecidableEq, Repr

/-- Pre-play elapsed-time adjustment (src/main.py:919-931): snap to 0 when
below `REWIND_LENGTH` or at least the item length, otherwise rewind by
`REWIND_LENGTH` but never past `video_resume_point`. -/
def pre_play_adjust (c : Config) (next_video_length : Int) (st : PlayState) : PlayState :=
  if st.elapsed_time < c.REWIND_LENGTH || st.elapsed_time ≥ next_video_length then
    { st with elapsed_time := 0 }
  else if st.elapsed_time > st.video_resume_point then
    { st with elapsed_time := StreamStats.rewind st.elapsed_time c.REWIND_LENGTH }
  else
    { st with elapsed_time := st.video_resume_point }

/-- The skip path for a Normal item whose file is missing
(src/main.py:1149-1171): a `file_not_found` alert may be enqueued, the
in-memory cursor is zeroed, the play index advances, and
`(play_index, 0)` is written to the cursor file.  `n` is
`media_playlist_length`.  The returned list holds the
`(index, elapsed)` pairs written to `PLAY_INDEX_FILE`. -/
def file_not_found_skip (n : Nat) (st : PlayState) : PlayState × List (Nat × Int) :=
  let st := { st with elapsed_time := 0, video_resume_point := 0 }
  let st :=
    if st.play_index > n then { st with play_index := 0 }
    else { st with play_index := st.play_index + 1 }
  (st, [(st.play_index, 0)])

/-- The encoder-failure rewind in the retry branch (src/main.py:1089-1094):
rewind by `REWIND_LENGTH` and raise `video_resume_point` to the new
`elapsed_time`, but only when the rewound position would stay strictly
above the old `video_resume_point`; otherwise leave both unchanged. -/
def retry_rewind (c : Config) (st : PlayState) : PlayState :=
  if st.elapsed_time - c.REWIND_LENGTH > st.video_resume_point then
    let st := { st with elapsed_time := StreamStats.rewind st.elapsed_time c.REWIND_LENGTH }
    { st with video_resume_point := st.elapsed_time }
  else st

/-- One iteration of the inner play loop after `encoder_task` returns
(src/main.py:1045-1113).  `exit_time` is the wall-clock duration of the
encoder run, `exit_code` its exit status, `n` is
`media_playlist_length` and `next_video_length` already includes
`VIDEO_PADDING` (src/main.py:933).  Returns the new state, the
`(index, elapsed)` pairs written to the cursor file at the item
boundary, and whether the inner loop breaks. -/
def encoder_iteration (c : Config) (n : Nat) (next_video_length : Int)
    (exit_code exit_time : Int) (st : PlayState) :
    PlayState × List (Nat × Int) × Bool :=
  let st := { st with stream_time_remaining := st.stream_time_remaining - exit_time }
  if exit_code = 0 then
    let st := { st with
      retried := false
      elapsed_time := 0
      video_resume_point := 0
      videos_since_restart := st.videos_since_restart + 1
      total_videos := st.total_videos + 1 }
    let st :=
      if st.play_index > n then { st with play_index := 0 }
      else { st with play_index := st.play_index + 1 }
    (st, [(st.play_index, 0)], true)
  else
    let st := { st with retried := true, retries := st.retries + 1 }
    if st.stream_time_remaining > next_video_length - exit_time then
      (retry_rewind c st, [], false)
    else
      ({ st with stream_time_remaining := 0,
                 videos_since_restart := st.videos_since_restart + 1 }, [], true)

/-! ## Version prober (src/main.py:159-242) -/

/-- The comparison in `check_new_version` (src/main.py:206-210):
`latest_major > saved_major or latest_minor > saved_minor or
latest_patch > saved_patch`, on the still-string components produced by
`version.split(".")`.  Python string `>` is lexicographic on code
points, which is `<` flipped. -/
def version_components_newer (saved_major saved_minor saved_patch
    latest_major latest_minor latest_patch : String) : Bool :=
  pyStrLt saved_major latest_major || pyStrLt saved_minor latest_minor
    || pyStrLt saved_patch latest_patch

/-- Whether `check_new_version` returns a new-version record
(src/main.py:206-224): the component comparison must pass and the
prerelease gate `(latest_prerelease and MAIL_ALERT_ON_NEW_PRERELEASE_VERSION)
or not latest_prerelease` must hold. -/
def check_new_version_returns_record (c : Config)
    (saved_major saved_minor saved_patch
     latest_major latest_minor latest_patch : String)
    (latest_prerelease : Bool) : Bool :=
  version_components_newer saved_major saved_minor saved_patch
      latest_major latest_minor latest_patch
    && ((latest_prerelease && c.MAIL_ALERT_ON_NEW_PRERELEASE_VERSION)
        || !latest_prerelease)

/-- Numeric semver strictly-greater comparison, as the specification
describes the intended check: component-wise `major.minor.patch`,
numeric. -/
def semverGt (a b : Nat × Nat × Nat) : Bool :=
  decide (b.1 < a.1) ||
    (a.1 == b.1 && (decide (b.2.1 < a.2.1) ||
      (a.2.1 == b.2.1 && decide (b.2.2 < a.2.2))))

/-! ## Remote uploader (src/playlist.py:737-843) -/

/-- Outcome of one `upload_ssh().result(timeout=10)` attempt, by the
exception handler it lands in (src/playlist.py:770-799).  `success`
means the call returned `None`. -/
inductive UploadOutcome where
  | success
  | timeout
  | authError
  | sshError
  | osError
  | otherError
  deriving DecidableEq, Repr

/-- Result of the upload retry loop. -/
structure UploadLoopResult where
  ssh_result : Option Bool
  ssh_exceptions : Nat
  attempts_made : Nat
  diverged : Bool
  deriving DecidableEq, Repr

/-- The upload retry loop (src/playlist.py:759-816).  One list element is
consumed per attempt; `upload_attempts_remaining` starts at
`REMOTE_UPLOAD_ATTEMPTS` and is only decremented while positive, so a
negative setting retries forever.  On success the loop breaks with
`ssh_result = True`; on an authentication error it zeroes the remaining
attempts, sets `ssh_result = False` and breaks; every other outcome
records one exception and loops.  An exhausted outcome list with the
loop still running is reported as `diverged`. -/
def upload_loop : Int → List UploadOutcome → Nat → Nat → UploadLoopResult
  | upload_attempts_remaining, [], ssh_exceptions, attempts_made =>
      if upload_attempts_remaining = 0 then ⟨none, ssh_exceptions, attempts_made, false⟩
      else ⟨none, ssh_exceptions, attempts_made, true⟩
  | upload_attempts_remaining, o :: rest, ssh_exceptions, attempts_made =>
      if upload_attempts_remaining = 0 then ⟨none, ssh_exceptions, attempts_made, false⟩
      else
        let remaining :=
          if upload_attempts_remaining > 0 then upload_attempts_remaining - 1
          else upload_attempts_remaining
        match o with
        | .success => ⟨some true, ssh_exceptions, attempts_made + 1, false⟩
        | .authError => ⟨some false, ssh_exceptions + 1, attempts_made + 1, false⟩
        | _ => upload_loop remaining rest (ssh_exceptions + 1) (attempts_made + 1)

/-- The post-loop alert block (src/playlist.py:818-842): alerts are
considered only when at least one exception was logged, the mail daemon
is initialised and running, and `MAIL_ALERT_ON_REMOTE_ERROR > 0`.
`remote_auth_failed` additionally sets `config.REMOTE_ADDRESS = None`,
disabling uploads for the process lifetime.  Returns the alert types
added and whether the uploader was disabled. -/
def upload_report (c : Config) (daemonRunning : Bool) (r : UploadLoopResult) :
    List String × Bool :=
  if r.ssh_exceptions > 0 && daemonRunning && c.MAIL_ALERT_ON_REMOTE_ERROR > 0 then
    match r.ssh_result with
    | none =>
        if c.MAIL_ALERT_ON_REMOTE_ERROR ≥ 1 then (["remote_error"], false)
        else ([], false)
    | some false =>
        if c.MAIL_ALERT_ON_REMOTE_ERROR ≥ 1 then (["remote_auth_failed"], true)
        else ([], false)
    | some true =>
        if c.MAIL_ALERT_ON_REMOTE_ERROR ≥ 2 then
          (["remote_success_after_error"], false)
        else ([], false)
  else ([], false)

/-- The upload stage of `write_schedule` for one generated schedule:
run the retry loop, then the alert block. -/
def schedule_upload (c : Config) (daemonRunning : Bool)
    (outcomes : List UploadOutcome) : UploadLoopResult × List String × Bool :=
  let r := upload_loop c.REMOTE_UPLOAD_ATTEMPTS outcomes 0 0
  (r, upload_report c daemonRunning r)

/-! ## Schedule generator (src/playlist.py:256-735) -/

/-- Playlist directives (`PlaylistEntry.info` of a command entry,
src/playlist.py:94-96 and the dispatch at src/playlist.py:591-608).
`other` covers an unrecognized directive, which raises `ValueError`. -/
inductive Directive where
  | RESTART
  | INSTANT_RESTART
  | STOP
  | MAIL (text : String)
  | EXCEPTION
  | other (s : String)
  deriving DecidableEq, Repr

/-- A playlist entry as the schedule generator consumes it.  For a
normal entry, `length` is the result of `check_file` plus
`get_length` on its file: `none` when the file is missing or the probe
raises (both paths record a schedule error and skip the entry). -/
inductive SchedEntry where
  | normal (name : String) (length : Option Int) (info : String)
  | extra (info : String)
  | command (d : Directive)
  | blank
  deriving DecidableEq, Repr

/-- One object of the `coming_up_next` / `previous_files` JSON arrays
(src/playlist.py:370-379, 551-560, 576-585).  The formatted `time`
string is omitted; `unixtime` carries the timestamp. -/
structure SchedRecord where
  type : String
  name : String
  unixtime : Int
  length : Int
  extra_info : String
  deriving DecidableEq, Repr

/-- The local mutable variables of the `write_schedule` enumeration
loop: the running timestamp, the pending `length_offset`, the stream
duration used for simulated restarts, the accumulated `total_duration`,
the count of normal entries appended to the `coming_up_next` deque and
the count of entries skipped for matching the exclude rules. -/
structure SchedState where
  current_schedule_time : Int
  length_offset : Int
  stream_duration : Int
  total_duration : Int
  coming_up_next_normal : Nat
  skipped_normal_entries : Nat
  deriving DecidableEq, Repr

/-- Exclusion test for a normal entry (src/playlist.py:505-515): the
casefolded name starts with one of the configured patterns, or the
probed length is below `SCHEDULE_MIN_VIDEO_LENGTH`.  Python `casefold`
is modelled by ASCII lower-casing. -/
def scheduleSkipReason (c : Config) (name : String) (entry_length : Int) : Bool :=
  (match c.SCHEDULE_EXCLUDE_FILE_PATTERN with
    | none => false
    | some ps => ps.any (fun p => List.isPrefixOf p.data (asciiLower name.data)))
  || decide (entry_length < c.SCHEDULE_MIN_VIDEO_LENGTH)

/-- The simulated-restart offset applied when appending a normal entry
(src/playlist.py:539-546). -/
def normalStepRestart (c : Config) (stream_duration entry_length : Int) : Bool :=
  decide (stream_duration + entry_length + c.VIDEO_PADDING ≥ c.STREAM_TIME_BEFORE_RESTART)

def normalStepOffset (c : Config) (stream_duration entry_length : Int) : Int :=
  if normalStepRestart c stream_duration entry_length then get_stream_restart_duration c
  else 0

/-- Loop break test at the top of each iteration
(src/playlist.py:407-428): once the minimum count of normal entries in
the deque is reached, stop when `SCHEDULE_MAX_VIDEOS` (plus the skipped
entries) or `SCHEDULE_UPCOMING_LENGTH` is exceeded. -/
def scheduleBreak (c : Config) (st : SchedState) : Bool :=
  st.coming_up_next_normal ≥ c.SCHEDULE_MIN_VIDEOS &&
    (st.coming_up_next_normal ≥ c.SCHEDULE_MAX_VIDEOS + st.skipped_normal_entries
      || decide (st.total_duration > c.SCHEDULE_UPCOMING_LENGTH))

/-- The `for playlist_line_num, entry in sub_playlist` loop of
`write_schedule` (src/playlist.py:407-611), over a finite unrolling of
the cyclic iterator.  Returns the emitted JSON objects, the final state
and whether the loop aborted with `ValueError` on an unrecognized
directive. -/
def write_schedule_loop (c : Config) :
    List (Nat × SchedEntry) → SchedState → List SchedRecord × SchedState × Bool
  | [], st => ([], st, false)
  | (_, e) :: rest, st =>
    if scheduleBreak c st then ([], st, false)
    else
      match e with
      | .blank => write_schedule_loop c rest st
      | .normal name len info =>
          match len with
          | none => write_schedule_loop c rest st
          | some entry_length =>
              let st := { st with coming_up_next_normal := st.coming_up_next_normal + 1 }
              if scheduleSkipReason c name entry_length then
                let el := entry_length + c.VIDEO_PADDING
                let lo := st.length_offset + el
                write_schedule_loop c rest
                  { st with
                    length_offset := lo
                    total_duration := st.total_duration + el
                    stream_duration := st.stream_duration + el
                    current_schedule_time := st.current_schedule_time + lo
                    skipped_normal_entries := st.skipped_normal_entries + 1 }
              else
                let lo := normalStepOffset c st.stream_duration entry_length
                let sd := if normalStepRestart c st.stream_duration entry_length then (0 : Int)
                          else st.stream_duration
                let t := st.current_schedule_time + lo
                let el := entry_length + c.VIDEO_PADDING
                let r := write_schedule_loop c rest
                  { st with
                    current_schedule_time := t + el
                    length_offset := lo
                    stream_duration := sd + el
                    total_duration := st.total_duration + el }
                (⟨"normal", name, t, entry_length, info⟩ :: r.1, r.2)
      | .extra info =>
          let r := write_schedule_loop c rest st
          (⟨"extra", "", 0, 0, info⟩ :: r.1, r.2)
      | .command d =>
          match d with
          | .RESTART =>
              write_schedule_loop c rest
                { st with length_offset := get_stream_restart_duration c }
          | .INSTANT_RESTART =>
              write_schedule_loop c rest
                { st with length_offset := c.STREAM_RESTART_WAIT }
          | .MAIL _ => write_schedule_loop c rest st
          | .STOP => ([], st, false)
          | .EXCEPTION => write_schedule_loop c rest st
          | .other _ => ([], st, true)

/-- Result of a `write_schedule` run: the `coming_up_next` array, the
final loop state, the value left in `stats.elapsed_time` (the function
mutates it at src/playlist.py:345-346) and the `ValueError` abort flag. -/
structure ScheduleResult where
  coming_up_next : List SchedRecord
  final : SchedState
  new_elapsed_time : Int
  aborted : Bool
  deriving DecidableEq, Repr

/-- The loop state prepared before the enumeration loop of
`write_schedule` (src/playlist.py:324-394): the first entry has been
emitted with the real start timestamp, the elapsed time of the current
video reduced its effective length, and a simulated restart right after
the first entry is folded into `length_offset`. -/
def wsInitState (c : Config)
    (start_time elapsed_time stream_time_remaining first_length : Int) : SchedState :=
  let elapsed := if elapsed_time < c.REWIND_LENGTH then 0 else elapsed_time
  let el0 := first_length + (-elapsed) + c.VIDEO_PADDING
  let restart0 := decide (stream_time_remaining ≥ c.STREAM_TIME_BEFORE_RESTART)
  { current_schedule_time := start_time + el0
    length_offset := if restart0 then get_stream_restart_duration c else 0
    stream_duration := (if restart0 then 0 else stream_time_remaining) + el0
    total_duration := el0
    coming_up_next_normal := 0
    skipped_normal_entries := 0 }

/-- playlist.write_schedule (src/playlist.py:256-735), restricted to the
computation of `coming_up_next`.  `start_time` is the wall clock at the
start of the call, `elapsed_time` and `stream_time_remaining` are read
from `stats`, `first_length` is `get_length` of the entry at
`entry_index` (the currently playing video, emitted unconditionally),
`extra_entries` are the texts of the extra entries handed in by the
supervisor, and `entries` is the cyclic iterator output starting after
`entry_index`. -/
def write_schedule (c : Config) (start_time elapsed_time stream_time_remaining : Int)
    (first_name : String) (first_length : Int) (first_info : String)
    (extra_entries : List String) (entries : List (Nat × SchedEntry)) :
    ScheduleResult :=
  let elapsed := if elapsed_time < c.REWIND_LENGTH then 0 else elapsed_time
  let extras : List SchedRecord :=
    extra_entries.map (fun i => ⟨"extra", "", 0, 0, i⟩)
  let first : SchedRecord := ⟨"normal", first_name, start_time, first_length, first_info⟩
  let r := write_schedule_loop c entries
    (wsInitState c start_time elapsed_time stream_time_remaining first_length)
  { coming_up_next := extras ++ first :: r.1
    final := r.2.1
    new_elapsed_time := elapsed
    aborted := r.2.2 }

/-- The `unixtime` values of the normal records, in order. -/
def normalTimes (recs : List SchedRecord) : List Int :=
  recs.filterMap (fun r => if r.type == "normal" then some r.unixtime else none)

/-- Entries whose processing leaves the loop state unchanged: blank
lines, extra entries, and `%MAIL` / `%EXCEPTION` commands. -/
def neutralEntry : SchedEntry → Bool
  | .blank => true
  | .extra _ => true
  | .command (.MAIL _) => true
  | .command .EXCEPTION => true
  | _ => false

/-- Normal entries carry a nonnegative probed length. -/
def entryNonneg : SchedEntry → Bool
  | .normal _ (some l) _ => decide (0 ≤ l)
  | _ => true

/-- The records emitted while processing a run of neutral entries: one
extra-typed record per extra entry, nothing else. -/
def neutralRecords (es : List (Nat × SchedEntry)) : List SchedRecord :=
  es.filterMap (fun p =>
    match p.2 with
    | .extra i => some ⟨"extra", "", 0, 0, i⟩
    | _ => none)

/-- The loop state after appending one non-excluded normal entry of
probed length `L` (src/playlist.py:436-572): the deque count grows, the
restart offset is folded into the timestamp, and the running durations
advance by `L + VIDEO_PADDING`. -/
def nextNormalState (c : Config) (st : SchedState) (L : Int) : SchedState :=
  { st with
    coming_up_next_normal := st.coming_up_next_normal + 1
    current_schedule_time :=
      st.current_schedule_time + normalStepOffset c st.stream_duration L
        + (L + c.VIDEO_PADDING)
    length_offset := normalStepOffset c st.stream_duration L
    stream_duration :=
      (if normalStepRestart c st.stream_duration L then 0 else st.stream_duration)
        + (L + c.VIDEO_PADDING)
    total_duration := st.total_duration + (L + c.VIDEO_PADDING) }

/-- The offset between the wall-clock time of a successful non-urgent
send and the value stored in `last_sent` for its type
(src/mail.py:139-153): zero for every type except `schedule_error`,
which stores a point `scheduleErrorExtraDelay` in the future. -/
def sendExtraDelay (c : Config) (alert_type : String) : Int :=
  if alert_type = "schedule_error" then scheduleErrorExtraDelay c else 0

/-- Invariant carried between two non-urgent, non-bypass deliveries of
type `a`: either the daemon has been stopped (no further sends happen),
or `last_sent a` holds a time at least `u1 + sendExtraDelay c a`, where
`u1` is the delivery time of the earlier message. -/
def DedupInv (c : Config) (st : EMailDaemon) (a : String) (u1 : Int) : Prop :=
  st.running = false ∨
    ∃ t, st.lastSentOf a = some t ∧ u1 + sendExtraDelay c a ≤ t

/-! ## Concrete instances used in the theorems below -/

/-- A supervisor state in the middle of a run, about to process the
Normal item at index 2 of a 5-entry playlist whose file is missing. -/
def stateAtMissingFile : PlayState :=
  { play_index := 2, elapsed_time := 17, video_resume_point := 0,
    stream_time_remaining := 1000, videos_since_restart := 3,
    total_videos := 3, retried := false, retries := 0 }

/-- A supervisor state after an encoder failure at elapsed time 35 with
a resume floor of 10 (reachable with `TIME_RECORD_INTERVAL = 25` after
an earlier rewind to 10). -/
def stateAfterFailureAt35 : PlayState :=
  { play_index := 0, elapsed_time := 35, video_resume_point := 10,
    stream_time_remaining := 10000, videos_since_restart := 1,
    total_videos := 1, retried := true, retries := 1 }

/-- A daemon whose bounded queue is at its `maxsize` of 10. -/
def fullQueueDaemon : EMailDaemon :=
  { queue := List.replicate 10 ⟨10, "playlist_loop", false⟩ }

/-- Dispatcher trace for the deduplication counterexample: a queued
`schedule_error` delivery at time 0, an urgent one at time 10, and a
queued one at time 3610, with the default 240-minute upcoming length
(`SCHEDULE_UPCOMING_LENGTH = 14400` seconds). -/
def dedupTrace : List MailEvent :=
  [.worker "schedule_error" false 0 .ok,
   .urgent "schedule_error" 10 .ok,
   .worker "schedule_error" false 3610 .ok]

/-- Configuration for the schedule counterexample: no padding, a large
restart budget, an exclude pattern and a minimum of 4 upcoming videos. -/
def schedCounterexampleConfig : Config :=
  { REWIND_LENGTH := 30, VIDEO_PADDING := 0,
    STREAM_TIME_BEFORE_RESTART := 100000, STREAM_RESTART_WAIT := 10,
    SCHEDULE_MIN_VIDEOS := 4, SCHEDULE_MAX_VIDEOS := 15,
    SCHEDULE_UPCOMING_LENGTH := 100000, SCHEDULE_MIN_VIDEO_LENGTH := 0,
    SCHEDULE_EXCLUDE_FILE_PATTERN := some ["excludeme"] }

/-- Playlist tail for the schedule counterexample: a normal entry, an
extra entry, two consecutive excluded entries, and a final normal
entry. -/
def schedCounterexampleEntries : List (Nat × SchedEntry) :=
  [(2, .normal "f" (some 30) ""),
   (3, .extra "note"),
   (4, .normal "excludeme1" (some 100) ""),
   (5, .normal "excludeme2" (some 50) ""),
   (6, .normal "g" (some 180) "")]

end MrOtcs

namespace MrOtcs

/-! ## Theorems

Each claim of the specification is settled by one theorem below (plus a
closed witness when the theorem carries hypotheses, and a closed
counterexample where the claim fails as stated). -/

/-- C10.  `check_file` with a `None` path returns `True` at once for
every configuration of `RETRY_ATTEMPTS`, `EXIT_ON_FILE_NOT_FOUND` and
`no_exit`: the retry loop never runs, so there is no existence probe,
no sleep, no alert and no exception. -/
theorem check_file_none_returns_true (c : Config) (no_exit : Bool)
    (daemon : Option EMailDaemon) (fileExists : Nat → Bool) (fuel : Nat) :
    check_file c none no_exit daemon fileExists fuel = .ok (true, []) := rfl

/-- C6.  The infinite-retry branch of `check_file` calls `add_alert`
with the key `"playlist_file_retry"`, which is not in the
`alert_types` dictionary of `add_alert` (the dictionary has
`"file_retry"`), so the first miss raises
`ValueError("Unrecognized alert type: playlist_file_retry")` instead of
enqueueing the `file_retry` alert and polling. -/
theorem file_retry_alert_type_bug :
    check_file { RETRY_ATTEMPTS := -1 } (some "/media/videos/missing.mp4") false
        (some {}) (fun _ => false) 3
      = .error (.valueError "Unrecognized alert type: playlist_file_retry")
    ∧ alertPriority "file_retry" = some 0
    ∧ alertPriority "playlist_file_retry" = none := by
  refine ⟨rfl, rfl, rfl⟩

/-- C8.  The version comparison accepts versions that are numerically
older: with stored version 2.0.0 a fetched 1.0.1 is reported as new
(the patch strings compare), and with stored 1.0.10 a fetched 1.0.9 is
reported as new (string "10" is less than string "9"); numerically
neither fetched version is greater. -/
theorem version_compare_bug :
    check_new_version_returns_record {} "2" "0" "0" "1" "0" "1" false = true
    ∧ semverGt (1, 0, 1) (2, 0, 0) = false
    ∧ check_new_version_returns_record {} "1" "0" "10" "1" "0" "9" false = true
    ∧ semverGt (1, 0, 9) (1, 0, 10) = false := by
  refine ⟨rfl, rfl, rfl, rfl⟩

/-- C9 counterexample.  A `write_schedule` call with
`stats.elapsed_time = 5` and `REWIND_LENGTH = 30` leaves
`stats.elapsed_time = 0`: the schedule generator does change the
in-memory cursor field. -/
theorem schedule_generator_mutates_elapsed :
    (write_schedule { REWIND_LENGTH := 30 } 1700000000 5 3600 "a" 100 "" [] []).new_elapsed_time = 0
    ∧ (5 : Int) ≠ 0 := by
  exact ⟨rfl, by decide⟩

/-- C9 amended.  `write_schedule` never writes the cursor file and
leaves `play_index` untouched (it only reads `entry_index`); the one
cursor field it mutates is `stats.elapsed_time`, which changes exactly
when it was nonzero and below `REWIND_LENGTH`, in which case it is
zeroed. -/
theorem schedule_generator_elapsed_frame (c : Config)
    (start_time elapsed_time stream_time_remaining : Int)
    (first_name : String) (first_length : Int) (first_info : String)
    (extra_entries : List String) (entries : List (Nat × SchedEntry)) :
    (write_schedule c start_time elapsed_time stream_time_remaining
        first_name first_length first_info extra_entries entries).new_elapsed_time
        ≠ elapsed_time
      ↔ (elapsed_time ≠ 0 ∧ elapsed_time < c.REWIND_LENGTH) := by
  simp only [write_schedule]
  split
  · omega
  · omega

/-- C2 counterexample.  After an encoder failure at elapsed `t = 35`
with `video_resume_point = 10` and `REWIND_LENGTH = 30`, the retry
branch leaves `elapsed_time = 35`, so the next attempt does not begin
at `max(video_resume_point, t - REWIND_LENGTH) = 10`. -/
theorem encoder_retry_resume_counterexample :
    (retry_rewind { REWIND_LENGTH := 30 } stateAfterFailureAt35).elapsed_time = 35
    ∧ max stateAfterFailureAt35.video_resume_point
        (stateAfterFailureAt35.elapsed_time - 30) = 10
    ∧ (35 : Int) ≠ 10 := by
  refine ⟨rfl, rfl, by decide⟩

/-- C2 amended.  After an encoder failure at elapsed `t`: when
`t - REWIND_LENGTH` is strictly above `video_resume_point` the next
attempt begins at `t - REWIND_LENGTH` and the resume point is raised to
that value; otherwise both fields are unchanged and the next attempt
begins at `t` itself.  In both cases the next attempt begins at or
after `max(video_resume_point, t - REWIND_LENGTH)`, and
`elapsed_time ≥ video_resume_point` is preserved. -/
theorem encoder_retry_resume_characterization (c : Config) (st : PlayState)
    (hvrp : 0 ≤ st.video_resume_point)
    (helapsed : st.video_resume_point ≤ st.elapsed_time) :
    (st.elapsed_time - c.REWIND_LENGTH > st.video_resume_point →
      (retry_rewind c st).elapsed_time = st.elapsed_time - c.REWIND_LENGTH
      ∧ (retry_rewind c st).video_resume_point = (retry_rewind c st).elapsed_time)
    ∧ (¬ st.elapsed_time - c.REWIND_LENGTH > st.video_resume_point →
      retry_rewind c st = st)
    ∧ max st.video_resume_point (st.elapsed_time - c.REWIND_LENGTH)
        ≤ (retry_rewind c st).elapsed_time
    ∧ (retry_rewind c st).video_resume_point ≤ (retry_rewind c st).elapsed_time := by
  simp only [retry_rewind, StreamStats.rewind]
  split
  · simp_all
    omega
  · simp_all
    try omega

/-- C2 witness. -/
theorem encoder_retry_resume_characterization_witness :
    (0 : Int) ≤ stateAfterFailureAt35.video_resume_point
    ∧ stateAfterFailureAt35.video_resume_point ≤ stateAfterFailureAt35.elapsed_time
    ∧ max stateAfterFailureAt35.video_resume_point
        (stateAfterFailureAt35.elapsed_time - ({ REWIND_LENGTH := 30 } : Config).REWIND_LENGTH)
        ≤ (retry_rewind { REWIND_LENGTH := 30 } stateAfterFailureAt35).elapsed_time := by
  refine ⟨by decide, by decide, ?_⟩
  exact (encoder_retry_resume_characterization { REWIND_LENGTH := 30 }
    stateAfterFailureAt35 (by decide) (by decide)).2.2.1

/-- C1 counterexample.  When the file of the Normal item at index 2 is
missing, the skip path writes `(3, 0)` to the cursor file: the
persisted cursor advances to `(i+1, 0)` although no encoder for item 2
ran, let alone exited with code 0. -/
theorem cursor_advance_missing_file_counterexample :
    (file_not_found_skip 5 stateAtMissingFile).2 = [(3, 0)]
    ∧ (file_not_found_skip 5 stateAtMissingFile).1.play_index
        = stateAtMissingFile.play_index + 1 := by
  refine ⟨rfl, rfl⟩

/-- C1 amended.  At an item boundary the persisted cursor advances to
`(i+1, 0)` exactly when the encoder for item `i` exits with code 0 or
item `i` is skipped because its file is missing; each such event writes
the cursor exactly once, a failed encoder attempt writes nothing at the
boundary, and the index never regresses (it moves from `i` to `i+1`). -/
theorem cursor_advance_characterization (c : Config) (n : Nat)
    (next_video_length exit_code exit_time : Int) (st : PlayState)
    (hidx : st.play_index ≤ n) :
    (exit_code = 0 →
      (encoder_iteration c n next_video_length exit_code exit_time st).2.1
          = [(st.play_index + 1, 0)]
      ∧ (encoder_iteration c n next_video_length exit_code exit_time st).1.play_index
          = st.play_index + 1)
    ∧ (exit_code ≠ 0 →
      (encoder_iteration c n next_video_length exit_code exit_time st).2.1 = [])
    ∧ (file_not_found_skip n st).2 = [(st.play_index + 1, 0)]
    ∧ st.play_index < st.play_index + 1 := by
  constructor
  · intro h
    simp only [encoder_iteration, h, if_pos rfl]
    have : ¬ st.play_index > n := by omega
    simp [this]
  constructor
  · intro h
    simp only [encoder_iteration, if_neg h]
    split <;> rfl
  constructor
  · have : ¬ st.play_index > n := by omega
    simp [file_not_found_skip, this]
  · omega

/-- C1 witness. -/
theorem cursor_advance_characterization_witness :
    stateAtMissingFile.play_index ≤ 5
    ∧ ((0 : Int) = 0 →
        (encoder_iteration {} 5 100 0 50 stateAtMissingFile).2.1
          = [(stateAtMissingFile.play_index + 1, 0)]
        ∧ (encoder_iteration {} 5 100 0 50 stateAtMissingFile).1.play_index
          = stateAtMissingFile.play_index + 1) := by
  refine ⟨by decide, ?_⟩
  exact (cursor_advance_characterization {} 5 100 0 50 stateAtMissingFile (by decide)).1

/-- C5 counterexample.  An authentication failure on the first upload
attempt with the mail daemon not running: the retry loop stops at once
with `ssh_result = False`, but no `remote_auth_failed` alert is emitted
and `REMOTE_ADDRESS` is not cleared, so the uploader stays enabled for
later schedules. -/
theorem upload_auth_failure_counterexample :
    schedule_upload { REMOTE_UPLOAD_ATTEMPTS := 5 } false [.authError]
      = (⟨some false, 1, 1, false⟩, [], false) := by
  rfl

/-- C5 amended.  When an upload attempt fails with an authentication
error the retry loop stops immediately (no further outcome is
consumed, whatever the remaining attempt budget); if the mail daemon is
running and `MAIL_ALERT_ON_REMOTE_ERROR ≥ 1`, exactly one
`remote_auth_failed` alert is emitted and the uploader is disabled for
the process lifetime; otherwise no alert is emitted and the uploader
stays enabled. -/
theorem upload_auth_failure_behavior (c : Config) (daemonRunning : Bool)
    (rest : List UploadOutcome) (h : c.REMOTE_UPLOAD_ATTEMPTS ≠ 0) :
    upload_loop c.REMOTE_UPLOAD_ATTEMPTS (.authError :: rest) 0 0
        = ⟨some false, 1, 1, false⟩
    ∧ (daemonRunning = true → c.MAIL_ALERT_ON_REMOTE_ERROR ≥ 1 →
        upload_report c daemonRunning ⟨some false, 1, 1, false⟩
          = (["remote_auth_failed"], true))
    ∧ (daemonRunning = false ∨ c.MAIL_ALERT_ON_REMOTE_ERROR < 1 →
        upload_report c daemonRunning ⟨some false, 1, 1, false⟩ = ([], false)) := by
  refine ⟨?_, ?_, ?_⟩
  · simp [upload_loop, h]
  · intro hd hm
    simp only [upload_report]
    have h1 : c.MAIL_ALERT_ON_REMOTE_ERROR > 0 := by omega
    simp [hd, h1, hm]
  · intro hcase
    simp only [upload_report]
    rcases hcase with hd | hm
    · simp [hd]
    · have h1 : ¬ c.MAIL_ALERT_ON_REMOTE_ERROR > 0 := by omega
      simp [h1]

/-- C5 witness. -/
theorem upload_auth_failure_behavior_witness :
    ({ REMOTE_UPLOAD_ATTEMPTS := 5 } : Config).REMOTE_UPLOAD_ATTEMPTS ≠ 0
    ∧ upload_loop ({ REMOTE_UPLOAD_ATTEMPTS := 5 } : Config).REMOTE_UPLOAD_ATTEMPTS
        (.authError :: [.success]) 0 0 = ⟨some false, 1, 1, false⟩ := by
  refine ⟨by decide, ?_⟩
  exact (upload_auth_failure_behavior { REMOTE_UPLOAD_ATTEMPTS := 5 } true
    [.success] (by decide)).1

/-- C7 counterexample.  With the queue at its bound of 10: a non-urgent
alert is discarded leaving the queue unchanged, and an urgent alert is
sent synchronously without ever touching the queue — in neither case
does the newest urgent item displace the oldest non-urgent item. -/
theorem alert_queue_overflow_counterexample :
    add_alert fullQueueDaemon "stream_down" false false 0 .ok
      = .ok (fullQueueDaemon, [], [.discardedQueueFull])
    ∧ add_alert fullQueueDaemon "stream_down" false true 0 .ok
      = .ok ({ fullQueueDaemon with last_sent := [("stream_down", 0)] },
             [⟨"stream_down", 0, false, true⟩], [])
    ∧ fullQueueDaemon.queue.length = 10 := by
  refine ⟨rfl, rfl, rfl⟩

/-- C7 amended.  The pending queue holds at most 10 items: starting
from any state within the bound, `add_alert` keeps the bound; a
non-urgent alert added while the queue is full is discarded (with a log
line, modelled by the `discardedQueueFull` action) and the queue is
unchanged; an urgent alert never enqueues anything. -/
theorem alert_queue_overflow_behavior (st : EMailDaemon) (alert_type : String)
    (bypass_interval urgent : Bool) (now : Int) (smtp : SmtpOutcome)
    (r : EMailDaemon × List SendRec × List QueueAction)
    (hlen : st.queue.length ≤ 10)
    (h : add_alert st alert_type bypass_interval urgent now smtp = .ok r) :
    r.1.queue.length ≤ 10
    ∧ (urgent = false → st.queue.length = 10 →
        r.1.queue = st.queue ∧ (st.running = true → r.2.2 = [.discardedQueueFull]))
    ∧ (urgent = true → r.1.queue.length ≤ st.queue.length) := by
  unfold add_alert at h
  split at h
  case isTrue hrun =>
    injection h with h
    subst h
    refine ⟨hlen, fun _ _ => ⟨rfl, fun hru => ?_⟩, fun _ => le_refl _⟩
    simp [hru] at hrun
  case isFalse =>
    split at h
    · exact absurd h (by simp)
    · split at h
      case isTrue hnu =>
        split at h
        case isTrue hfull =>
          injection h with h
          subst h
          refine ⟨hlen, fun _ _ => ⟨rfl, fun _ => rfl⟩, fun hu => ?_⟩
          simp [hu] at hnu
        case isFalse hfull =>
          injection h with h
          subst h
          refine ⟨?_, fun _ h10 => ?_, fun hu => ?_⟩
          · simp only [List.length_append, List.length_cons, List.length_nil]
            omega
          · exact absurd h10 (by omega)
          · simp [hu] at hnu
      case isFalse hnu =>
        have hu : urgent = true := by
          cases urgent
          · simp at hnu
          · rfl
        split at h
        · injection h with h
          subst h
          exact ⟨by simpa [EMailDaemon.setLastSent] using hlen,
                 fun hfalse _ => by simp [hfalse] at hu,
                 fun _ => by simp [EMailDaemon.setLastSent]⟩
        · injection h with h
          subst h
          exact ⟨hlen, fun hfalse _ => by simp [hfalse] at hu,
                 fun _ => le_refl _⟩
        · injection h with h
          subst h
          exact ⟨by simp [EMailDaemon.stop],
                 fun hfalse _ => by simp [hfalse] at hu,
                 fun _ => by simp [EMailDaemon.stop]⟩

/-- Helper: `last_sent` lookup after updating the same key. -/
theorem lastSentOf_set_self (st : EMailDaemon) (a : String) (t : Int) :
    (st.setLastSent a t).lastSentOf a = some t := by
  simp [EMailDaemon.setLastSent, EMailDaemon.lastSentOf, List.find?]

/-- Helper: a lookup for key `b` ignores entries filtered on key `a`. -/
theorem find_key_filter_other (l : List (String × Int)) (a b : String) (h : b ≠ a) :
    List.find? (fun p => p.1 == b) (l.filter (fun p => !(p.1 == a)))
      = List.find? (fun p => p.1 == b) l := by
  induction l with
  | nil => rfl
  | cons x xs ih =>
    by_cases hxa : x.1 = a
    · have h1 : (x.1 == a) = true := beq_iff_eq.mpr hxa
      have h2 : (x.1 == b) = false := by
        rw [beq_eq_false_iff_ne, hxa]
        exact fun hh => h hh.symm
      simp [List.filter_cons, h1, List.find?_cons_of_neg, h2, ih]
    · have h1 : (x.1 == a) = false := beq_eq_false_iff_ne.mpr hxa
      by_cases hxb : x.1 = b
      · have h2 : (x.1 == b) = true := beq_iff_eq.mpr hxb
        simp [List.filter_cons, h1, List.find?_cons_of_pos, h2]
      · have h2 : (x.1 == b) = false := beq_eq_false_iff_ne.mpr hxb
        simp [List.filter_cons, h1, List.find?_cons_of_neg, h2, ih]

/-- Helper: `last_sent` lookup after updating a different key. -/
theorem lastSentOf_set_ne (st : EMailDaemon) (a b : String) (t : Int) (h : b ≠ a) :
    (st.setLastSent a t).lastSentOf b = st.lastSentOf b := by
  have hba : (a == b) = false := by
    rw [beq_eq_false_iff_ne]
    exact fun hh => h hh.symm
  simp only [EMailDaemon.setLastSent, EMailDaemon.lastSentOf]
  rw [List.find?_cons_of_neg _ (by simpa using hba), find_key_filter_other _ _ _ h]

/-- Helper: the successful-send update of `_send_email_if_allowed`
stores `now + sendExtraDelay` whatever the type. -/
theorem send_update_value (c : Config) (st : EMailDaemon) (b : String) (now : Int) :
    (if b ≠ "schedule_error" then st.setLastSent b now
     else st.setLastSent "schedule_error" (now + scheduleErrorExtraDelay c))
      = st.setLastSent b (now + sendExtraDelay c b) := by
  by_cases hb : b = "schedule_error"
  · simp [hb, sendExtraDelay]
  · simp [hb, sendExtraDelay]

/-- Helper: the urgent path of `add_alert` as seen through `mailStep`:
no state change while stopped or for an unrecognized type (the raised
`ValueError` leaves the daemon untouched), otherwise one synchronous
send attempt. -/
theorem mailStep_urgent (c : Config) (st : EMailDaemon) (b : String)
    (now : Int) (smtp : SmtpOutcome) :
    mailStep c st (.urgent b now smtp)
      = (if st.running then
          match alertPriority b with
          | none => (st, [])
          | some _ =>
              match smtp with
              | .ok => (st.setLastSent b now, [⟨b, now, false, true⟩])
              | .fail => (st, [])
              | .authFail => (st.stop, [])
        else (st, [])) := by
  show (match add_alert st b false true now smtp with
        | .ok (st', sends, _) => (st', sends)
        | .error _ => (st, [])) = _
  unfold add_alert
  by_cases hrun : st.running
  · simp only [hrun, Bool.not_true, Bool.false_eq_true, if_false, if_true]
    cases hp : alertPriority b
    · simp
    · simp only
      cases smtp <;> simp
  · simp [hrun]

/-- Helper: one dispatcher step delivers at most one message. -/
theorem mailStep_sends_shape (c : Config) (st : EMailDaemon) (e : MailEvent) :
    (mailStep c st e).2 = [] ∨ ∃ r, (mailStep c st e).2 = [r] := by
  cases e with
  | worker b bp now smtp =>
      simp only [mailStep, send_email_if_allowed]
      split
      · split
        · cases smtp
          · right
            exact ⟨_, rfl⟩
          · left
            rfl
          · left
            rfl
        · left
          rfl
      · left
        rfl
  | urgent b now smtp =>
      rw [mailStep_urgent]
      split
      · split
        · left
          rfl
        · cases smtp
          · right
            exact ⟨_, rfl⟩
          · left
            rfl
          · left
            rfl
      · left
        rfl
  | stop now =>
      left
      rfl

/-- Helper: a delivered message carries the wall-clock time of its
event. -/
theorem mailStep_send_time (c : Config) (st : EMailDaemon) (e : MailEvent)
    (r : SendRec) (hr : r ∈ (mailStep c st e).2) : r.time = e.now := by
  cases e with
  | worker b bp now smtp =>
      simp only [mailStep, send_email_if_allowed] at hr
      revert hr
      split
      · split
        · cases smtp
          · intro hr
            simp at hr
            subst hr
            rfl
          · intro hr
            simp at hr
          · intro hr
            simp at hr
        · intro hr
          simp at hr
      · intro hr
        simp at hr
  | urgent b now smtp =>
      rw [mailStep_urgent] at hr
      revert hr
      split
      · split
        · intro hr
          simp at hr
        · cases smtp
          · intro hr
            simp at hr
            subst hr
            rfl
          · intro hr
            simp at hr
          · intro hr
            simp at hr
      · intro hr
        simp at hr
  | stop now =>
      simp [mailStep] at hr

/-- Helper: a dispatcher step that performs no successful urgent send of
type `a` preserves the deduplication invariant. -/
theorem dedup_inv_preserved (c : Config) (a : String) (u1 : Int)
    (st : EMailDaemon) (e : MailEvent) (hinv : DedupInv c st a u1)
    (ht : u1 ≤ e.now)
    (hnu : ∀ r ∈ (mailStep c st e).2, ¬(r.urgent = true ∧ r.alert_type = a)) :
    DedupInv c (mailStep c st e).1 a u1 := by
  cases e with
  | worker b bp now smtp =>
      revert hnu
      simp only [mailStep, MailEvent.now] at *
      by_cases hrun : st.running
      · simp only [hrun, if_true]
        simp only [send_email_if_allowed]
        split
        · cases smtp with
          | ok =>
              intro _
              rw [send_update_value]
              by_cases hba : b = a
              · subst hba
                right
                exact ⟨now + sendExtraDelay c b, lastSentOf_set_self st b _, by omega⟩
              · rcases hinv with hstop | ⟨t, hfind, hle⟩
                · rw [hstop] at hrun
                  simp at hrun
                · right
                  refine ⟨t, ?_, hle⟩
                  rw [show a = a from rfl] at hfind
                  rw [lastSentOf_set_ne st b a _ (fun hh => hba hh.symm)]
                  exact hfind
          | fail => intro _; exact hinv
          | authFail =>
              intro _
              left
              rfl
        · intro _
          exact hinv
      · simp only [hrun, if_false]
        intro _
        exact hinv
  | urgent b now smtp =>
      revert hnu
      rw [mailStep_urgent]
      split
      · split
        · intro _
          exact hinv
        · cases smtp with
          | ok =>
              intro hnu
              have hba : b ≠ a := by
                intro hba
                exact hnu ⟨b, now, false, true⟩ (by simp) ⟨rfl, hba⟩
              rcases hinv with hstop | ⟨t, hfind, hle⟩
              · left
                simp only [EMailDaemon.setLastSent]
                exact hstop
              · right
                refine ⟨t, ?_, hle⟩
                rw [lastSentOf_set_ne st b a _ (fun hh => hba hh.symm)]
                exact hfind
          | fail =>
              intro _
              exact hinv
          | authFail =>
              intro _
              left
              rfl
      · intro _
        exact hinv
  | stop now =>
      left
      rfl

/-- Helper: under the invariant, a non-bypass, non-urgent delivery of
type `a` can only happen a full hour after the stored `last_sent`
time. -/
theorem dedup_send_bound (c : Config) (a : String) (u1 : Int)
    (st : EMailDaemon) (e : MailEvent) (r : SendRec)
    (hinv : DedupInv c st a u1) (hr : r ∈ (mailStep c st e).2)
    (hrb : r.bypass_interval = false) (hru : r.urgent = false)
    (hra : r.alert_type = a) :
    u1 + sendExtraDelay c a + 3600 ≤ r.time := by
  cases e with
  | worker b bp now smtp =>
      revert hr
      simp only [mailStep, send_email_if_allowed]
      by_cases hrun : st.running
      · simp only [hrun, if_true]
        split
        next hallow =>
          cases smtp with
          | ok =>
              intro hr
              simp at hr
              subst hr
              have hba : b = a := hra
              have hbp : bp = false := hrb
              subst hba
              subst hbp
              show u1 + sendExtraDelay c b + 3600 ≤ now
              rcases hinv with hstop | ⟨t, hfind, hle⟩
              · rw [hstop] at hrun
                simp at hrun
              · simp only [Bool.false_or] at hallow
                rw [hfind] at hallow
                simp at hallow
                omega
          | fail =>
              intro hr
              simp at hr
          | authFail =>
              intro hr
              simp at hr
        next =>
          intro hr
          simp at hr
      · simp only [hrun, if_false]
        intro hr
        simp at hr
  | urgent b now smtp =>
      revert hr
      rw [mailStep_urgent]
      split
      · split
        · intro hr
          simp at hr
        · cases smtp <;> intro hr <;> simp at hr
          subst hr
          simp at hru
      · intro hr
        simp at hr
  | stop now =>
      simp [mailStep] at hr

/-- Helper: a successful non-urgent delivery of type `a` establishes the
deduplication invariant at its own delivery time. -/
theorem dedup_establish (c : Config) (a : String) (st : EMailDaemon)
    (e : MailEvent) (r : SendRec) (hr : r ∈ (mailStep c st e).2)
    (hru : r.urgent = false) (hra : r.alert_type = a) :
    DedupInv c (mailStep c st e).1 a r.time := by
  cases e with
  | worker b bp now smtp =>
      revert hr
      simp only [mailStep, send_email_if_allowed]
      by_cases hrun : st.running
      · simp only [hrun, if_true]
        split
        · cases smtp with
          | ok =>
              intro hr
              simp at hr
              subst hr
              have hba : b = a := hra
              subst hba
              rw [send_update_value]
              right
              refine ⟨now + sendExtraDelay c b, lastSentOf_set_self st b _, ?_⟩
              show now + sendExtraDelay c b ≤ now + sendExtraDelay c b
              exact le_refl _
          | fail =>
              intro hr
              simp at hr
          | authFail =>
              intro hr
              simp at hr
        · intro hr
          simp at hr
      · simp only [hrun, if_false]
        intro hr
        simp at hr
  | urgent b now smtp =>
      revert hr
      rw [mailStep_urgent]
      split
      · split
        · intro hr
          simp at hr
        · cases smtp <;> intro hr <;> simp at hr
          subst hr
          simp at hru
      · intro hr
        simp at hr
  | stop now =>
      simp [mailStep] at hr

/-- Helper: unfolding one step of `mailRun`. -/
theorem mailRun_cons (c : Config) (st : EMailDaemon) (e : MailEvent)
    (evs : List MailEvent) :
    mailRun c st (e :: evs)
      = (mailStep c st e).2 ++ mailRun c (mailStep c st e).1 evs := rfl

/-- Helper: once the invariant holds for the first delivery, any later
non-bypass, non-urgent delivery of the same type with no successful
urgent delivery of that type before it happens at least
`sendExtraDelay + 3600` later. -/
theorem dedup_phase_after (c : Config) (a : String) (u1 : Int) :
    ∀ (evs : List MailEvent) (st : EMailDaemon),
      (∀ e ∈ evs, u1 ≤ e.now) → DedupInv c st a u1 →
      ∀ (o2 : List SendRec) (r2 : SendRec) (o3 : List SendRec),
        mailRun c st evs = o2 ++ r2 :: o3 →
        r2.alert_type = a → r2.bypass_interval = false → r2.urgent = false →
        (∀ r ∈ o2, ¬(r.urgent = true ∧ r.alert_type = a)) →
        u1 + sendExtraDelay c a + 3600 ≤ r2.time := by
  intro evs
  induction evs with
  | nil =>
      intro st _ _ o2 r2 o3 hsplit _ _ _ _
      simp [mailRun] at hsplit
  | cons e evs ih =>
      intro st hts hinv o2 r2 o3 hsplit hta htb htu hno2
      rw [mailRun_cons] at hsplit
      rcases mailStep_sends_shape c st e with hs | ⟨r, hs⟩
      · rw [hs, List.nil_append] at hsplit
        refine ih (mailStep c st e).1
          (fun e' he' => hts e' (List.mem_cons_of_mem _ he')) ?_ o2 r2 o3 hsplit
          hta htb htu hno2
        refine dedup_inv_preserved c a u1 st e hinv (hts e (List.mem_cons_self _ _)) ?_
        rw [hs]
        intro r hr
        simp at hr
      · rw [hs] at hsplit
        cases o2 with
        | nil =>
            simp only [List.nil_append, List.cons_append, List.cons.injEq] at hsplit
            obtain ⟨hr2, _⟩ := hsplit
            subst hr2
            exact dedup_send_bound c a u1 st e r hinv (by rw [hs]; simp)
              htb htu hta
        | cons x o2' =>
            simp only [List.cons_append, List.cons.injEq] at hsplit
            obtain ⟨hx, hrest⟩ := hsplit
            have hnr : ¬(r.urgent = true ∧ r.alert_type = a) := by
              rw [hx]
              exact hno2 x (List.mem_cons_self _ _)
            refine ih (mailStep c st e).1
              (fun e' he' => hts e' (List.mem_cons_of_mem _ he')) ?_ o2' r2 o3 hrest
              hta htb htu (fun r' hr' => hno2 r' (List.mem_cons_of_mem _ hr'))
            refine dedup_inv_preserved c a u1 st e hinv (hts e (List.mem_cons_self _ _)) ?_
            rw [hs]
            intro r' hr'
            simp at hr'
            subst hr'
            exact hnr

/-- Helper: locating the first delivery and chaining to
`dedup_phase_after`. -/
theorem dedup_phase_find (c : Config) (a : String) :
    ∀ (evs : List MailEvent) (st : EMailDaemon),
      evs.Pairwise (fun x y => x.now ≤ y.now) →
      ∀ (o1 : List SendRec) (r1 : SendRec) (o2 : List SendRec) (r2 : SendRec)
        (o3 : List SendRec),
        mailRun c st evs = o1 ++ r1 :: o2 ++ r2 :: o3 →
        r1.alert_type = a → r1.bypass_interval = false → r1.urgent = false →
        r2.alert_type = a → r2.bypass_interval = false → r2.urgent = false →
        (∀ r ∈ o2, ¬(r.urgent = true ∧ r.alert_type = a)) →
        r1.time + sendExtraDelay c a + 3600 ≤ r2.time := by
  intro evs
  induction evs with
  | nil =>
      intro st _ o1 r1 o2 r2 o3 hsplit _ _ _ _ _ _ _
      simp [mailRun] at hsplit
  | cons e evs ih =>
      intro st hmono o1 r1 o2 r2 o3 hsplit h1a h1b h1u h2a h2b h2u hno2
      rw [mailRun_cons] at hsplit
      rcases mailStep_sends_shape c st e with hs | ⟨r, hs⟩
      · rw [hs, List.nil_append] at hsplit
        exact ih (mailStep c st e).1 (List.Pairwise.of_cons hmono) o1 r1 o2 r2 o3
          hsplit h1a h1b h1u h2a h2b h2u hno2
      · rw [hs] at hsplit
        cases o1 with
        | nil =>
            simp only [List.nil_append, List.cons_append, List.cons.injEq] at hsplit
            obtain ⟨hr1, hrest⟩ := hsplit
            subst hr1
            have hmem : r ∈ (mailStep c st e).2 := by rw [hs]; simp
            have htime : r.time = e.now := mailStep_send_time c st e r hmem
            have hinvr : DedupInv c (mailStep c st e).1 a r.time :=
              dedup_establish c a st e r hmem h1u h1a
            refine dedup_phase_after c a r.time evs (mailStep c st e).1 ?_ hinvr
              o2 r2 o3 hrest h2a h2b h2u hno2
            intro e' he'
            rw [htime]
            exact (List.pairwise_cons.mp hmono).1 e' he'
        | cons x o1' =>
            simp only [List.cons_append, List.cons.injEq] at hsplit
            obtain ⟨_, hrest⟩ := hsplit
            exact ih (mailStep c st e).1 (List.Pairwise.of_cons hmono) o1' r1 o2 r2 o3
              hrest h1a h1b h1u h2a h2b h2u hno2

/-- Helper: `normalTimes` on an empty list. -/
theorem normalTimes_nil : normalTimes [] = [] := rfl

/-- Helper: `normalTimes` keeps the timestamp of a normal record. -/
theorem normalTimes_cons_normal (name : String) (t L : Int) (i : String)
    (l : List SchedRecord) :
    normalTimes (⟨"normal", name, t, L, i⟩ :: l) = t :: normalTimes l := by
  simp [normalTimes]

/-- Helper: `normalTimes` drops an extra record. -/
theorem normalTimes_cons_extra (i : String) (l : List SchedRecord) :
    normalTimes (⟨"extra", "", 0, 0, i⟩ :: l) = normalTimes l := by
  simp [normalTimes]

/-- Helper: `normalTimes` distributes over append. -/
theorem normalTimes_append (l1 l2 : List SchedRecord) :
    normalTimes (l1 ++ l2) = normalTimes l1 ++ normalTimes l2 := by
  simp [normalTimes]

/-- Helper: the records of a neutral run contain no normal record. -/
theorem normalTimes_neutralRecords (es : List (Nat × SchedEntry)) :
    normalTimes (neutralRecords es) = [] := by
  induction es with
  | nil => rfl
  | cons p rest ih =>
      obtain ⟨ln, e⟩ := p
      cases e with
      | extra i =>
          rw [show neutralRecords ((ln, SchedEntry.extra i) :: rest)
                = (⟨"extra", "", 0, 0, i⟩ : SchedRecord) :: neutralRecords rest from rfl]
          rw [normalTimes_cons_extra]
          exact ih
      | normal name len info => exact ih
      | command d => exact ih
      | blank => exact ih

/-- Helper: when the break test at the top of the loop fires, the loop
stops with the state unchanged. -/
theorem write_schedule_loop_break (c : Config) (ln : Nat) (e : SchedEntry)
    (rest : List (Nat × SchedEntry)) (st : SchedState)
    (hbr : scheduleBreak c st = true) :
    write_schedule_loop c ((ln, e) :: rest) st = ([], st, false) := by
  cases e with
  | normal name len info =>
      cases len with
      | none =>
          rw [write_schedule_loop]
          simp [hbr]
      | some L =>
          rw [write_schedule_loop]
          simp [hbr]
  | extra i =>
      rw [write_schedule_loop]
      simp [hbr]
  | command d =>
      cases d with
      | RESTART =>
          rw [write_schedule_loop]
          simp [hbr]
      | INSTANT_RESTART =>
          rw [write_schedule_loop]
          simp [hbr]
      | STOP =>
          rw [write_schedule_loop]
          simp [hbr]
      | MAIL s =>
          rw [write_schedule_loop]
          simp [hbr]
      | EXCEPTION =>
          rw [write_schedule_loop]
          simp [hbr]
      | other s =>
          rw [write_schedule_loop]
          simp [hbr]
  | blank =>
      rw [write_schedule_loop]
      simp [hbr]

/-- Helper: unfolding the loop on a non-excluded normal entry. -/
theorem write_schedule_loop_normal_cons (c : Config) (ln : Nat) (name : String)
    (L : Int) (info : String) (rest : List (Nat × SchedEntry)) (st : SchedState)
    (hbr : scheduleBreak c st = false) (hskip : scheduleSkipReason c name L = false) :
    write_schedule_loop c ((ln, .normal name (some L) info) :: rest) st
      = (⟨"normal", name,
          st.current_schedule_time + normalStepOffset c st.stream_duration L,
          L, info⟩ :: (write_schedule_loop c rest (nextNormalState c st L)).1,
         (write_schedule_loop c rest (nextNormalState c st L)).2) := by
  rw [write_schedule_loop]
  simp only [hbr, Bool.false_eq_true, if_false, hskip]
  rfl

/-- Helper: unfolding the loop on an excluded normal entry. -/
theorem write_schedule_loop_skip_cons (c : Config) (ln : Nat) (name : String)
    (L : Int) (info : String) (rest : List (Nat × SchedEntry)) (st : SchedState)
    (hbr : scheduleBreak c st = false) (hskip : scheduleSkipReason c name L = true) :
    write_schedule_loop c ((ln, .normal name (some L) info) :: rest) st
      = write_schedule_loop c rest
          { st with
            coming_up_next_normal := st.coming_up_next_normal + 1
            length_offset := st.length_offset + (L + c.VIDEO_PADDING)
            total_duration := st.total_duration + (L + c.VIDEO_PADDING)
            stream_duration := st.stream_duration + (L + c.VIDEO_PADDING)
            current_schedule_time :=
              st.current_schedule_time + (st.length_offset + (L + c.VIDEO_PADDING))
            skipped_normal_entries := st.skipped_normal_entries + 1 } := by
  rw [write_schedule_loop]
  simp only [hbr, Bool.false_eq_true, if_false, hskip, if_true]

/-- Helper: the records emitted from the enumeration loop never
carry a timestamp before the state running timestamp, and the
timestamps of its normal records are non-decreasing, provided the
padding, restart durations and entry lengths are nonnegative and the
pending length offset is nonnegative. -/
theorem write_schedule_loop_mono (c : Config)
    (hpad : 0 ≤ c.VIDEO_PADDING) (hgrd : 0 ≤ get_stream_restart_duration c)
    (hwait : 0 ≤ c.STREAM_RESTART_WAIT) :
    ∀ (entries : List (Nat × SchedEntry)) (st : SchedState),
      0 ≤ st.length_offset →
      entries.all (fun p => entryNonneg p.2) = true →
      (∀ u ∈ normalTimes (write_schedule_loop c entries st).1,
          st.current_schedule_time ≤ u)
      ∧ (normalTimes (write_schedule_loop c entries st).1).Pairwise (· ≤ ·) := by
  intro entries
  induction entries with
  | nil =>
      intro st _ _
      constructor
      · intro u hu
        simp [write_schedule_loop, normalTimes] at hu
      · simp [write_schedule_loop, normalTimes]
  | cons p rest ih =>
      obtain ⟨ln, e⟩ := p
      intro st hlo hall
      have hall2 : rest.all (fun p => entryNonneg p.2) = true := by
        simp only [List.all_cons, Bool.and_eq_true] at hall
        exact hall.2
      by_cases hbr : scheduleBreak c st = true
      · rw [write_schedule_loop_break c ln e rest st hbr]
        constructor
        · intro u hu
          simp [normalTimes] at hu
        · simp [normalTimes]
      · rw [Bool.not_eq_true] at hbr
        cases e with
        | blank =>
            rw [show write_schedule_loop c ((ln, .blank) :: rest) st
                = write_schedule_loop c rest st by
              rw [write_schedule_loop]
              simp [hbr]]
            exact ih st hlo hall2
        | extra i =>
            have hrec : write_schedule_loop c ((ln, .extra i) :: rest) st
                = (⟨"extra", "", 0, 0, i⟩ :: (write_schedule_loop c rest st).1,
                   (write_schedule_loop c rest st).2) := by
              rw [write_schedule_loop]
              simp [hbr]
            rw [hrec]
            rw [show ((⟨"extra", "", 0, 0, i⟩ :: (write_schedule_loop c rest st).1,
                   (write_schedule_loop c rest st).2)
                  : List SchedRecord × SchedState × Bool).1
                = ⟨"extra", "", 0, 0, i⟩ :: (write_schedule_loop c rest st).1 from rfl]
            rw [normalTimes_cons_extra]
            exact ih st hlo hall2
        | command d =>
            cases d with
            | RESTART =>
                rw [show write_schedule_loop c ((ln, .command .RESTART) :: rest) st
                    = write_schedule_loop c rest
                        { st with length_offset := get_stream_restart_duration c } by
                  rw [write_schedule_loop]
                  simp [hbr]]
                exact ih _ (by simpa using hgrd) hall2
            | INSTANT_RESTART =>
                rw [show write_schedule_loop c ((ln, .command .INSTANT_RESTART) :: rest) st
                    = write_schedule_loop c rest
                        { st with length_offset := c.STREAM_RESTART_WAIT } by
                  rw [write_schedule_loop]
                  simp [hbr]]
                exact ih _ (by simpa using hwait) hall2
            | STOP =>
                rw [show write_schedule_loop c ((ln, .command .STOP) :: rest) st
                    = ([], st, false) by
                  rw [write_schedule_loop]
                  simp [hbr]]
                constructor
                · intro u hu
                  simp [normalTimes] at hu
                · simp [normalTimes]
            | MAIL s =>
                rw [show write_schedule_loop c ((ln, .command (.MAIL s)) :: rest) st
                    = write_schedule_loop c rest st by
                  rw [write_schedule_loop]
                  simp [hbr]]
                exact ih st hlo hall2
            | EXCEPTION =>
                rw [show write_schedule_loop c ((ln, .command .EXCEPTION) :: rest) st
                    = write_schedule_loop c rest st by
                  rw [write_schedule_loop]
                  simp [hbr]]
                exact ih st hlo hall2
            | other s =>
                rw [show write_schedule_loop c ((ln, .command (.other s)) :: rest) st
                    = ([], st, true) by
                  rw [write_schedule_loop]
                  simp [hbr]]
                constructor
                · intro u hu
                  simp [normalTimes] at hu
                · simp [normalTimes]
        | normal name len info =>
            cases len with
            | none =>
                rw [show write_schedule_loop c ((ln, .normal name none info) :: rest) st
                    = write_schedule_loop c rest st by
                  rw [write_schedule_loop]
                  simp [hbr]]
                exact ih st hlo hall2
            | some L =>
                have hL : 0 ≤ L := by
                  simp only [List.all_cons, Bool.and_eq_true] at hall
                  have := hall.1
                  simpa [entryNonneg] using this
                by_cases hskip : scheduleSkipReason c name L = true
                · rw [write_schedule_loop_skip_cons c ln name L info rest st hbr hskip]
                  have hlo2 : (0 : Int) ≤ st.length_offset + (L + c.VIDEO_PADDING) := by
                    omega
                  obtain ⟨ihb, ihp⟩ := ih
                    { st with
                      coming_up_next_normal := st.coming_up_next_normal + 1
                      length_offset := st.length_offset + (L + c.VIDEO_PADDING)
                      total_duration := st.total_duration + (L + c.VIDEO_PADDING)
                      stream_duration := st.stream_duration + (L + c.VIDEO_PADDING)
                      current_schedule_time :=
                        st.current_schedule_time + (st.length_offset + (L + c.VIDEO_PADDING))
                      skipped_normal_entries := st.skipped_normal_entries + 1 }
                    hlo2 hall2
                  refine ⟨fun u hu => ?_, ihp⟩
                  have hb := ihb u hu
                  have hst : ({ st with
                      coming_up_next_normal := st.coming_up_next_normal + 1
                      length_offset := st.length_offset + (L + c.VIDEO_PADDING)
                      total_duration := st.total_duration + (L + c.VIDEO_PADDING)
                      stream_duration := st.stream_duration + (L + c.VIDEO_PADDING)
                      current_schedule_time :=
                        st.current_schedule_time + (st.length_offset + (L + c.VIDEO_PADDING))
                      skipped_normal_entries := st.skipped_normal_entries + 1
                    } : SchedState).current_schedule_time
                      = st.current_schedule_time + (st.length_offset + (L + c.VIDEO_PADDING)) :=
                    rfl
                  rw [hst] at hb
                  omega
                · rw [Bool.not_eq_true] at hskip
                  rw [write_schedule_loop_normal_cons c ln name L info rest st hbr hskip]
                  rw [show ((⟨"normal", name,
                          st.current_schedule_time + normalStepOffset c st.stream_duration L,
                          L, info⟩ :: (write_schedule_loop c rest (nextNormalState c st L)).1,
                         (write_schedule_loop c rest (nextNormalState c st L)).2)
                        : List SchedRecord × SchedState × Bool).1
                      = ⟨"normal", name,
                          st.current_schedule_time + normalStepOffset c st.stream_duration L,
                          L, info⟩ :: (write_schedule_loop c rest (nextNormalState c st L)).1
                      from rfl]
                  rw [normalTimes_cons_normal]
                  have hoff : 0 ≤ normalStepOffset c st.stream_duration L := by
                    unfold normalStepOffset
                    split
                    · exact hgrd
                    · omega
                  obtain ⟨ihb, ihp⟩ := ih (nextNormalState c st L)
                    (by show (0 : Int) ≤ normalStepOffset c st.stream_duration L; omega)
                    hall2
                  have hnext : (nextNormalState c st L).current_schedule_time
                      = st.current_schedule_time + normalStepOffset c st.stream_duration L
                        + (L + c.VIDEO_PADDING) := rfl
                  constructor
                  · intro u hu
                    simp only [List.mem_cons] at hu
                    rcases hu with hu | hu
                    · omega
                    · have hb := ihb u hu
                      rw [hnext] at hb
                      omega
                  · rw [List.pairwise_cons]
                    refine ⟨fun u hu => ?_, ihp⟩
                    have hb := ihb u hu
                    rw [hnext] at hb
                    omega

/-- Helper: processing a run of neutral entries (blank, extra, MAIL,
EXCEPTION commands) emits exactly their extra records and leaves the
state unchanged. -/
theorem write_schedule_loop_neutral (c : Config) :
    ∀ (es rest : List (Nat × SchedEntry)) (st : SchedState),
      es.all (fun p => neutralEntry p.2) = true →
      scheduleBreak c st = false →
      write_schedule_loop c (es ++ rest) st
        = (neutralRecords es ++ (write_schedule_loop c rest st).1,
           (write_schedule_loop c rest st).2) := by
  intro es
  induction es with
  | nil =>
      intro rest st _ _
      simp [neutralRecords]
  | cons p es ih =>
      obtain ⟨ln, e⟩ := p
      intro rest st hn hbr
      have hn2 : es.all (fun p => neutralEntry p.2) = true := by
        simp only [List.all_cons, Bool.and_eq_true] at hn
        exact hn.2
      have hne : neutralEntry e = true := by
        simp only [List.all_cons, Bool.and_eq_true] at hn
        exact hn.1
      cases e with
      | blank =>
          rw [List.cons_append]
          rw [show write_schedule_loop c ((ln, SchedEntry.blank) :: (es ++ rest)) st
              = write_schedule_loop c (es ++ rest) st by
            rw [write_schedule_loop]
            simp [hbr]]
          rw [ih rest st hn2 hbr]
          rfl
      | extra i =>
          rw [List.cons_append]
          rw [show write_schedule_loop c ((ln, SchedEntry.extra i) :: (es ++ rest)) st
              = (⟨"extra", "", 0, 0, i⟩ :: (write_schedule_loop c (es ++ rest) st).1,
                 (write_schedule_loop c (es ++ rest) st).2) by
            rw [write_schedule_loop]
            simp [hbr]]
          rw [ih rest st hn2 hbr]
          rfl
      | normal name len info => simp [neutralEntry] at hne
      | command d =>
          cases d with
          | MAIL s =>
              rw [List.cons_append]
              rw [show write_schedule_loop c
                    ((ln, SchedEntry.command (.MAIL s)) :: (es ++ rest)) st
                  = write_schedule_loop c (es ++ rest) st by
                rw [write_schedule_loop]
                simp [hbr]]
              rw [ih rest st hn2 hbr]
              rfl
          | EXCEPTION =>
              rw [List.cons_append]
              rw [show write_schedule_loop c
                    ((ln, SchedEntry.command .EXCEPTION) :: (es ++ rest)) st
                  = write_schedule_loop c (es ++ rest) st by
                rw [write_schedule_loop]
                simp [hbr]]
              rw [ih rest st hn2 hbr]
              rfl
          | RESTART => simp [neutralEntry] at hne
          | INSTANT_RESTART => simp [neutralEntry] at hne
          | STOP => simp [neutralEntry] at hne
          | other s => simp [neutralEntry] at hne

/-- Helper: record component of `write_schedule_loop_normal_cons`. -/
theorem write_schedule_loop_normal_cons_fst (c : Config) (ln : Nat) (name : String)
    (L : Int) (info : String) (rest : List (Nat × SchedEntry)) (st : SchedState)
    (hbr : scheduleBreak c st = false) (hskip : scheduleSkipReason c name L = false) :
    (write_schedule_loop c ((ln, .normal name (some L) info) :: rest) st).1
      = ⟨"normal", name,
          st.current_schedule_time + normalStepOffset c st.stream_duration L,
          L, info⟩ :: (write_schedule_loop c rest (nextNormalState c st L)).1 := by
  rw [write_schedule_loop_normal_cons c ln name L info rest st hbr hskip]

/-- Helper: record component of `write_schedule_loop_neutral`. -/
theorem write_schedule_loop_neutral_fst (c : Config)
    (es rest : List (Nat × SchedEntry)) (st : SchedState)
    (hn : es.all (fun p => neutralEntry p.2) = true)
    (hbr : scheduleBreak c st = false) :
    (write_schedule_loop c (es ++ rest) st).1
      = neutralRecords es ++ (write_schedule_loop c rest st).1 := by
  rw [write_schedule_loop_neutral c es rest st hn hbr]

/-- Helper: the extra records handed in through `extra_entries` never
contribute a normal timestamp. -/
theorem normalTimes_extras (extra_entries : List String) (l : List SchedRecord) :
    normalTimes
        ((extra_entries.map (fun i => (⟨"extra", "", 0, 0, i⟩ : SchedRecord))) ++ l)
      = normalTimes l := by
  induction extra_entries with
  | nil => simp
  | cons x xs ih =>
      simp only [List.map_cons, List.cons_append]
      rw [normalTimes_cons_extra]
      exact ih

/-- C4 counterexample.  A concrete `write_schedule` run at generation
time 1700000000 with one handed-in extra entry, after-playlist entries
`f(30)`, an extra note, two excluded entries (100 s and 50 s) and
`g(180)`, with zero padding and no restarts.  The first element of
`coming_up_next` is the extra record with `unixtime = 0`, nowhere near
the generation time; `g` is timestamped 1700001000 although the claim
formula gives `f.unixtime + 30 + 0 + (100 + 50) = 1700000900` (the
first excluded length is applied twice); and the `unixtime` values over
the whole sequence are not non-decreasing (the extra note carries 0
between `f` and `g`). -/
theorem schedule_unixtime_counterexample :
    (write_schedule schedCounterexampleConfig 1700000000 0 3600 "e" 720 ""
        ["pre"] schedCounterexampleEntries).coming_up_next
      = [⟨"extra", "", 0, 0, "pre"⟩,
         ⟨"normal", "e", 1700000000, 720, ""⟩,
         ⟨"normal", "f", 1700000720, 30, ""⟩,
         ⟨"extra", "", 0, 0, "note"⟩,
         ⟨"normal", "g", 1700001000, 180, ""⟩]
    ∧ ¬((1700000000 : Int) - 0 ≤ 1)
    ∧ (1700001000 : Int)
        ≠ 1700000720 + 30 + schedCounterexampleConfig.VIDEO_PADDING
          + (100 + schedCounterexampleConfig.VIDEO_PADDING)
          + (50 + schedCounterexampleConfig.VIDEO_PADDING)
    ∧ ¬(((write_schedule schedCounterexampleConfig 1700000000 0 3600 "e" 720 ""
          ["pre"] schedCounterexampleEntries).coming_up_next.map
            (fun r => r.unixtime)).Pairwise (· ≤ ·)) := by
  refine ⟨by decide, by decide, by decide, by decide⟩

/-- C4 amended.  For every generated schedule (nonnegative padding,
restart durations and entry lengths, and an elapsed time within the
first video): the first normal element of `coming_up_next` carries
`unixtime` equal to the system time at generation (hence within 1 s of
it); the `unixtime` values over the normal elements are non-decreasing
(extra elements carry `unixtime = 0` and are excluded, as is shown by
the counterexample); and for two normal entries separated only by
blank, extra, `%MAIL` or `%EXCEPTION` entries, neither excluded and
neither hitting the loop limits, the second element's `unixtime` equals
the first's plus its length, plus the video padding, plus the simulated
restart offset of the step (timestamp contributions of excluded entries
systematically accumulate in `length_offset` and may be applied more
than once, so the general excluded-entry clause of the claim is
dropped). -/
theorem schedule_unixtime_chain (c : Config)
    (hpad : 0 ≤ c.VIDEO_PADDING) (hgrd : 0 ≤ get_stream_restart_duration c)
    (hwait : 0 ≤ c.STREAM_RESTART_WAIT)
    (start_time elapsed_time stream_time_remaining first_length : Int)
    (first_name first_info : String)
    (extra_entries : List String) (entries : List (Nat × SchedEntry))
    (hel0 : 0 ≤ elapsed_time) (hel1 : elapsed_time ≤ first_length)
    (hall : entries.all (fun p => entryNonneg p.2) = true) :
    (normalTimes (write_schedule c start_time elapsed_time stream_time_remaining
        first_name first_length first_info extra_entries entries).coming_up_next).head?
      = some start_time
    ∧ (normalTimes (write_schedule c start_time elapsed_time stream_time_remaining
        first_name first_length first_info extra_entries entries).coming_up_next).Pairwise
        (· ≤ ·)
    ∧ ∀ (ln1 ln2 : Nat) (n1 n2 i1 i2 : String) (L1 L2 : Int)
        (mid tail : List (Nat × SchedEntry)) (st : SchedState),
        mid.all (fun p => neutralEntry p.2) = true →
        scheduleBreak c st = false →
        scheduleBreak c (nextNormalState c st L1) = false →
        scheduleSkipReason c n1 L1 = false →
        scheduleSkipReason c n2 L2 = false →
        normalTimes (write_schedule_loop c
            ((ln1, .normal n1 (some L1) i1)
              :: (mid ++ (ln2, .normal n2 (some L2) i2) :: tail)) st).1
          = (st.current_schedule_time + normalStepOffset c st.stream_duration L1)
            :: (st.current_schedule_time + normalStepOffset c st.stream_duration L1
                 + (L1 + c.VIDEO_PADDING)
                 + normalStepOffset c (nextNormalState c st L1).stream_duration L2)
            :: normalTimes (write_schedule_loop c tail
                 (nextNormalState c (nextNormalState c st L1) L2)).1 := by
  have hcu : (write_schedule c start_time elapsed_time stream_time_remaining
        first_name first_length first_info extra_entries entries).coming_up_next
      = (extra_entries.map (fun i => (⟨"extra", "", 0, 0, i⟩ : SchedRecord)))
        ++ ⟨"normal", first_name, start_time, first_length, first_info⟩
          :: (write_schedule_loop c entries
              (wsInitState c start_time elapsed_time stream_time_remaining
                first_length)).1 := rfl
  have hlo0 : 0 ≤ (wsInitState c start_time elapsed_time stream_time_remaining
      first_length).length_offset := by
    show (0 : Int) ≤ if decide (stream_time_remaining ≥ c.STREAM_TIME_BEFORE_RESTART)
        then get_stream_restart_duration c else 0
    split
    · exact hgrd
    · omega
  have hst0 : start_time ≤ (wsInitState c start_time elapsed_time
      stream_time_remaining first_length).current_schedule_time := by
    show start_time ≤ start_time
      + (first_length
          + (-(if elapsed_time < c.REWIND_LENGTH then 0 else elapsed_time))
          + c.VIDEO_PADDING)
    split
    · omega
    · omega
  obtain ⟨hmb, hmp⟩ := write_schedule_loop_mono c hpad hgrd hwait entries
    (wsInitState c start_time elapsed_time stream_time_remaining first_length)
    hlo0 hall
  refine ⟨?_, ?_, ?_⟩
  · rw [hcu, normalTimes_extras, normalTimes_cons_normal]
    rfl
  · rw [hcu, normalTimes_extras, normalTimes_cons_normal]
    rw [List.pairwise_cons]
    refine ⟨fun u hu => ?_, hmp⟩
    have := hmb u hu
    omega
  · intro ln1 ln2 n1 n2 i1 i2 L1 L2 mid tail st hmid hbr1 hbr2 hskip1 hskip2
    rw [write_schedule_loop_normal_cons_fst c ln1 n1 L1 i1 _ st hbr1 hskip1]
    rw [normalTimes_cons_normal]
    rw [write_schedule_loop_neutral_fst c mid _ (nextNormalState c st L1) hmid hbr2]
    rw [normalTimes_append, normalTimes_neutralRecords, List.nil_append]
    rw [write_schedule_loop_normal_cons_fst c ln2 n2 L2 i2 tail
      (nextNormalState c st L1) hbr2 hskip2]
    rw [normalTimes_cons_normal]
    rfl

/-- C4 witness. -/
theorem schedule_unixtime_chain_witness :
    (normalTimes (write_schedule {} 100 0 0 "a" 50 "" [] []).coming_up_next).head?
      = some 100
    ∧ normalTimes (write_schedule_loop {}
        [((2 : Nat), .normal "b" (some 40) ""), ((3 : Nat), .blank),
         ((4 : Nat), .normal "d" (some 60) "")]
        { current_schedule_time := 150, length_offset := 0, stream_duration := 50,
          total_duration := 50, coming_up_next_normal := 0,
          skipped_normal_entries := 0 }).1
      = [150, 150 + (40 + 2)] := by
  constructor
  · exact (schedule_unixtime_chain {} (by decide) (by decide) (by decide)
      100 0 0 50 "a" "" [] [] (by decide) (by decide) (by decide)).1
  · have h := (schedule_unixtime_chain {} (by decide) (by decide) (by decide)
      100 0 0 50 "a" "" [] [] (by decide) (by decide) (by decide)).2.2
      2 4 "b" "d" "" "" 40 60 [((3 : Nat), SchedEntry.blank)] []
      { current_schedule_time := 150, length_offset := 0, stream_duration := 50,
        total_duration := 50, coming_up_next_normal := 0,
        skipped_normal_entries := 0 }
      (by decide) (by decide) (by decide) (by decide) (by decide)
    rw [show ([((3 : Nat), SchedEntry.blank)]
          ++ [((4 : Nat), SchedEntry.normal "d" (some 60) "")])
        = [((3 : Nat), SchedEntry.blank),
           ((4 : Nat), SchedEntry.normal "d" (some 60) "")] from rfl] at h
    rw [h]
    decide

/-- C3 counterexample.  Trace `dedupTrace` (events in wall-clock order):
a non-urgent `schedule_error` delivered at time 0, an urgent one at
time 10, and a second non-urgent one at time 3610.  With the default
`SCHEDULE_UPCOMING_LENGTH` of 14400 s (240 min) the claimed window for
`schedule_error` is 10800 s, but the two non-urgent, non-bypass
deliveries are only 3610 s apart: the urgent send reset `last_sent` to
its own (earlier) time. -/
theorem alert_dedup_window_counterexample :
    mailRun {} {} dedupTrace
      = [⟨"schedule_error", 0, false, false⟩,
         ⟨"schedule_error", 10, false, true⟩,
         ⟨"schedule_error", 3610, false, false⟩]
    ∧ dedupTrace.Pairwise (fun x y => x.now ≤ y.now)
    ∧ (3610 : Int) - 0 < claimedDedupWindow {} "schedule_error" := by
  refine ⟨by decide, by decide, by decide⟩

/-- C3 amended.  Over any dispatcher trace in wall-clock order, two
non-urgent, non-bypass deliveries of the same alert type with no
successful urgent delivery of that type between them are never within
one deduplication window of each other — the window being 1 hour by
default and, for `schedule_error`, the upcoming length minus one hour
floored at zero (the code in fact enforces an even larger gap of
1 hour plus `(SCHEDULE_UPCOMING_LENGTH − 60)` minutes).  An urgent
delivery of the same type between them can reset `last_sent` downward
and void the `schedule_error` window, which is what the counterexample
exhibits. -/
theorem alert_dedup_window (c : Config) (evs : List MailEvent)
    (hmono : evs.Pairwise (fun x y => x.now ≤ y.now))
    (o1 : List SendRec) (r1 : SendRec) (o2 : List SendRec) (r2 : SendRec)
    (o3 : List SendRec)
    (hsplit : mailRun c {} evs = o1 ++ r1 :: o2 ++ r2 :: o3)
    (htype : r1.alert_type = r2.alert_type)
    (hb1 : r1.bypass_interval = false) (hu1 : r1.urgent = false)
    (hb2 : r2.bypass_interval = false) (hu2 : r2.urgent = false)
    (hno2 : ∀ r ∈ o2, ¬(r.urgent = true ∧ r.alert_type = r1.alert_type)) :
    claimedDedupWindow c r1.alert_type ≤ r2.time - r1.time
    ∧ 3600 ≤ r2.time - r1.time := by
  have h := dedup_phase_find c r1.alert_type evs {} hmono o1 r1 o2 r2 o3 hsplit
    rfl hb1 hu1 htype.symm hb2 hu2 hno2
  have hpos : 0 ≤ sendExtraDelay c r1.alert_type := by
    unfold sendExtraDelay scheduleErrorExtraDelay
    split
    · positivity
    · omega
  have harith : claimedDedupWindow c r1.alert_type
      ≤ sendExtraDelay c r1.alert_type + 3600 := by
    unfold claimedDedupWindow sendExtraDelay scheduleErrorExtraDelay
    split
    · omega
    · omega
  omega

/-- C3 witness. -/
theorem alert_dedup_window_witness :
    ([MailEvent.worker "playlist_loop" false 0 .ok,
      MailEvent.worker "playlist_loop" false 4000 .ok].Pairwise
        (fun x y => x.now ≤ y.now))
    ∧ claimedDedupWindow {} "playlist_loop" ≤ (4000 : Int) - 0 := by
  refine ⟨by decide, ?_⟩
  exact (alert_dedup_window {}
    [MailEvent.worker "playlist_loop" false 0 .ok,
     MailEvent.worker "playlist_loop" false 4000 .ok] (by decide)
    [] ⟨"playlist_loop", 0, false, false⟩
    [] ⟨"playlist_loop", 4000, false, false⟩ [] (by decide) rfl rfl rfl rfl rfl
    (fun r hr => by simp at hr)).1

/-- C7 witness. -/
theorem alert_queue_overflow_behavior_witness :
    fullQueueDaemon.queue.length ≤ 10
    ∧ add_alert fullQueueDaemon "stream_down" false false 0 .ok
        = .ok (fullQueueDaemon, [], [.discardedQueueFull])
    ∧ (fullQueueDaemon, ([] : List SendRec),
        [QueueAction.discardedQueueFull]).1.queue.length ≤ 10 := by
  refine ⟨by decide, rfl, ?_⟩
  exact (alert_queue_overflow_behavior fullQueueDaemon "stream_down" false false 0 .ok
    (fullQueueDaemon, [], [.discardedQueueFull]) (by decide) rfl).1

end MrOtcs
